import Mathlib

/-!
Shallow embedding of `src/backend/server.js` (BLE monitoring backend:
device registry, priority index, notification log, health monitor).

Modelling conventions:
* JS numbers appearing in request bodies (rssi, distance) are rationals;
  the stored distance estimate is a real number, since `Math.pow(10, x)`
  is idealised as the real power function.
* Timestamps are naturals (milliseconds since epoch).  Natural
  subtraction `now - c` truncates at zero; every comparison in the code
  of the form `t < now - c` or `now - t < c` has the same truth value
  under truncation as under JS arithmetic, because timestamps are
  non-negative (a negative JS threshold rejects every timestamp, just as
  the truncated threshold `0` does, and a negative JS difference is below
  every positive bound, as is the truncated `0`).
* JS truthiness of an optional number is "present and nonzero"; of an
  optional string, "present and nonempty"; `undefined <= c` is `false`.
* `io.emit` calls are modelled as an explicit list of emitted events
  returned by each handler, in emission order.
-/

namespace BleServer

open scoped Classical

/-- One element of the `devices` array POSTed by the Pico W producer.
The handler reads `address`, `name`, `rssi` and `distance`. -/
structure Reading where
  address : String
  name : Option String
  rssi : Option ℚ
  distance : Option ℚ
deriving DecidableEq

/-- JS truthiness of an optional number: present and nonzero. -/
def numTruthy : Option ℚ → Bool
  | none => false
  | some q => q != 0

/-- JS truthiness of an optional string: present and nonempty. -/
def strTruthy : Option String → Bool
  | none => false
  | some s => s != ""

/-- JS `x || y` on optional strings: `y` when `x` is absent or empty. -/
def jsStrOr (x y : Option String) : Option String :=
  if strTruthy x then x else y

/-- `calculateDistanceFromRSSI(rssi, txPower)` (the code always calls it
with the default `txPower = -59`): `-1.0` when `rssi` is exactly `0`,
otherwise `10 ^ ((txPower - rssi) / 20)`. -/
noncomputable def calculateDistanceFromRSSI (rssi txPower : ℚ) : ℝ :=
  if rssi = 0 then -1 else (10 : ℝ) ^ ((((txPower - rssi) / 20 : ℚ) : ℝ))

/-- The value of the local `estimatedDistance` after
`let estimatedDistance = device.distance;
 if (!estimatedDistance && device.rssi)
   estimatedDistance = calculateDistanceFromRSSI(device.rssi);`
where `none` plays the role of `undefined`. -/
noncomputable def estimatedDistance (r : Reading) : Option ℝ :=
  if !numTruthy r.distance && numTruthy r.rssi then
    some (calculateDistanceFromRSSI (r.rssi.getD 0) (-59))
  else
    r.distance.map (fun q => (q : ℝ))

/-- JS `x || dflt` on an optional number: the default replaces an
undefined or zero value. -/
noncomputable def jsNumOr (x : Option ℝ) (dflt : ℝ) : ℝ :=
  match x with
  | none => dflt
  | some v => if v = 0 then dflt else v

/-- The `distance` field stored by the upsert: `estimatedDistance || 5.0`. -/
noncomputable def storedDistance (r : Reading) : ℝ :=
  jsNumOr (estimatedDistance r) 5

/-- JS `x <= c` where `x` may be undefined (`undefined <= c` is false). -/
noncomputable def jsLe (x : Option ℝ) (c : ℝ) : Bool :=
  match x with
  | none => false
  | some v => decide (v ≤ c)

/-- The value stored for one address in `detectedDevices`. -/
structure DeviceRecord where
  address : String
  name : Option String
  rssi : Option ℚ
  distance : ℝ
  isPriority : Bool
  lastUpdated : Nat
  source : String
  wasInRange : Bool

/-- The record built by
`detectedDevices.set(device.address, { ...device, distance: ..., isPriority: ...,
lastUpdated: ..., source: 'pico_w', wasInRange: ... })`:
`wasInRange` keeps the previous value when a record for the address
already exists, and is otherwise `estimatedDistance <= 2.0`. -/
noncomputable def mkRecord (existing : Option DeviceRecord) (r : Reading)
    (idx : List String) (now : Nat) : DeviceRecord :=
  { address := r.address
    name := r.name
    rssi := r.rssi
    distance := storedDistance r
    isPriority := decide (r.address ∈ idx)
    lastUpdated := now
    source := "pico_w"
    wasInRange :=
      match existing with
      | some old => old.wasInRange
      | none => jsLe (estimatedDistance r) 2 }

/-- The `detectedDevices` map, as an association list in insertion order
(the iteration order of a JS `Map`). -/
abbrev RegMap := List (String × DeviceRecord)

/-- `detectedDevices.get(a)`: the record stored under the first (and, for
a JS `Map`, only) occurrence of the key. -/
def mapGet : RegMap → String → Option DeviceRecord
  | [], _ => none
  | p :: m, a => if p.1 = a then some p.2 else mapGet m a

/-- `detectedDevices.set(a, v)`: replaces an existing key in place,
otherwise appends (JS `Map` insertion-order semantics). -/
def mapSet : RegMap → String → DeviceRecord → RegMap
  | [], a, v => [(a, v)]
  | p :: m, a, v => if p.1 = a then (a, v) :: m else p :: mapSet m a v

/-- `detectedDevices.delete(a)`. -/
def mapDelete : RegMap → String → RegMap
  | [], _ => []
  | p :: m, a => if p.1 = a then mapDelete m a else p :: mapDelete m a

/-- `priorityDevices.add(a)` (JS `Set`: duplicate insert is a no-op). -/
def setAdd (s : List String) (a : String) : List String :=
  if a ∈ s then s else s ++ [a]

/-- `priorityDevices.delete(a)` (removal of a non-member is a no-op). -/
def setDelete : List String → String → List String
  | [], _ => []
  | b :: s, a => if b = a then setDelete s a else b :: setDelete s a

/-- One entry of the `notifications` array.  The producer-facing fields
may be absent, since `POST /api/notifications` does not validate them. -/
structure Notification where
  id : String
  deviceAddress : Option String
  deviceName : Option String
  eventType : Option String
  timestamp : Nat
  received : Nat
  source : String
deriving DecidableEq

/-- The auto-notification synthesized for a stale priority device by the
inline eviction pass.  `Date.now().toString()` supplies the time part of
the id; the `Math.random()` suffix is nondeterministic environment input
and is abstracted to the empty suffix (no claim depends on id contents). -/
def timeoutNotification (a : String) (d : DeviceRecord) (now : Nat) : Notification :=
  { id := toString now
    deviceAddress := some a
    deviceName := jsStrOr d.name (some a)
    eventType := some ("desconexion")
    timestamp := now
    received := now
    source := "system_timeout" }

/-- `notifications.unshift(n); if (notifications.length > 100)
notifications = notifications.slice(0, 100);` -/
def appendNotification (n : Notification) (log : List Notification) : List Notification :=
  if (n :: log).length > 100 then (n :: log).take 100 else n :: log

/-- Events published through `io.emit`, in emission order. -/
inductive Emit
  /-- `io.emit('notification', n)`. -/
  | notificationEvent (n : Notification)
  /-- `io.emit('devicesUpdate', ...)` with the current snapshot. -/
  | devicesUpdate (devices : List DeviceRecord)
  /-- `io.emit('priorityUpdate', ...)`. -/
  | priorityUpdate (addr : String) (flag : Bool) (idx : List String)
  /-- `io.emit('notificationsCleared')`. -/
  | notificationsCleared
  /-- `io.emit('notificationsUpdate', ...)` (most recent 20 entries). -/
  | notificationsUpdate (ns : List Notification)
  /-- `io.emit('systemStatsUpdate', ...)`. -/
  | systemStatsUpdate
  /-- `io.emit('systemAlert', ...)`. -/
  | systemAlert

/-- Whether an emitted event is a notification event for address `a`. -/
def isNotifEmitFor (a : String) : Emit → Bool
  | Emit.notificationEvent n => n.deviceAddress == some a
  | _ => false

/-- The module-level mutable state of the server. -/
structure ServerState where
  detectedDevices : RegMap
  priorityDevices : List String
  notifications : List Notification
  esp32LastSeen : Option Nat
  picoLastSeen : Option Nat
  totalScans : Nat

/-- The state right after the module loads: empty registry, empty
priority set, empty log, no producer contact, zero scans. -/
def initialState : ServerState :=
  { detectedDevices := []
    priorityDevices := []
    notifications := []
    esp32LastSeen := none
    picoLastSeen := none
    totalScans := 0 }

/-- `req.body.devices` as seen by `POST /api/devices`: either an array of
readings, or missing / not an array (rejected with status 400). -/
inductive DevicesBody
  | valid (devices : List Reading)
  | invalid

/-- Response of `POST /api/devices`. -/
inductive DevicesResponse
  | ok (received totalDevices : Nat)
  | badRequest
deriving DecidableEq

/-- The `devices.forEach(...)` upsert loop. -/
noncomputable def applyReadings (m : RegMap) (idx : List String) (now : Nat)
    (rs : List Reading) : RegMap :=
  rs.foldl (fun acc r => mapSet acc r.address (mkRecord (mapGet acc r.address) r idx now)) m

/-- Accumulator of the inline eviction loop: current registry, current
notification log, events emitted so far. -/
structure EvictAcc where
  devices : RegMap
  log : List Notification
  emits : List Emit

/-- The inline eviction loop
`for (let [address, device] of detectedDevices) { ... }`: iterates the
registry entries; a record not updated for 2 minutes is deleted, after
first appending (and emitting) a timeout notification when it is
priority-flagged.  Deleting the entry under iteration is safe for a JS
`Map` iterator, so the loop is equivalent to this recursion over the
entry list. -/
def inlineEvictGo (now : Nat) : List (String × DeviceRecord) → EvictAcc → EvictAcc
  | [], acc => acc
  | (a, d) :: rest, acc =>
    if d.lastUpdated < now - 120000 then
      if d.isPriority then
        inlineEvictGo now rest
          { devices := mapDelete acc.devices a
            log := appendNotification (timeoutNotification a d now) acc.log
            emits := acc.emits ++ [Emit.notificationEvent (timeoutNotification a d now)] }
      else
        inlineEvictGo now rest
          { devices := mapDelete acc.devices a, log := acc.log, emits := acc.emits }
    else inlineEvictGo now rest acc

/-- The inline eviction pass over the whole registry. -/
def inlineEvict (m : RegMap) (log : List Notification) (now : Nat) : EvictAcc :=
  inlineEvictGo now m { devices := m, log := log, emits := [] }

/-- `POST /api/devices`: validate, record producer contact, upsert the
batch, run the inline eviction pass, broadcast the snapshot, respond. -/
noncomputable def postDevices (s : ServerState) (body : DevicesBody) (now : Nat) :
    ServerState × List Emit × DevicesResponse :=
  match body with
  | DevicesBody.invalid => (s, [], DevicesResponse.badRequest)
  | DevicesBody.valid rs =>
    let mid := applyReadings s.detectedDevices s.priorityDevices now rs
    let ev := inlineEvict mid s.notifications now
    ({ s with picoLastSeen := some now
              totalScans := s.totalScans + 1
              detectedDevices := ev.devices
              notifications := ev.log },
     ev.emits ++ [Emit.devicesUpdate (ev.devices.map Prod.snd)],
     DevicesResponse.ok rs.length ev.devices.length)

/-- Response of `POST /api/set-priority`. -/
inductive SetPriorityResponse
  | ok (deviceAddress : String) (isPriority : Bool) (totalPriorityDevices : Nat)
  | badRequest
deriving DecidableEq

/-- The `detectedDevices.has / get / set` block of `POST /api/set-priority`:
when a record for the address exists, overwrite its `isPriority` field. -/
def setPriorityUpdateRecord (m : RegMap) (a : String) (flag : Bool) : RegMap :=
  match mapGet m a with
  | some d => mapSet m a { d with isPriority := flag }
  | none => m

/-- `POST /api/set-priority`: a missing or empty `deviceAddress` is
rejected with status 400; otherwise the address is added to or removed
from the priority set, an existing record's flag is synchronised, and a
priority update is emitted. -/
def postSetPriority (s : ServerState) (deviceAddress : Option String) (isPriority : Bool) :
    ServerState × List Emit × SetPriorityResponse :=
  if strTruthy deviceAddress then
    let a := deviceAddress.getD ""
    let idx := if isPriority then setAdd s.priorityDevices a else setDelete s.priorityDevices a
    let m := setPriorityUpdateRecord s.detectedDevices a isPriority
    ({ s with priorityDevices := idx, detectedDevices := m },
     [Emit.priorityUpdate a isPriority idx],
     SetPriorityResponse.ok a isPriority idx.length)
  else (s, [], SetPriorityResponse.badRequest)

/-- `req.body` of `POST /api/notifications` (none of the fields is
validated, so all are optional). -/
structure NotificationBody where
  deviceAddress : Option String
  deviceName : Option String
  eventType : Option String
  timestamp : Option Nat

/-- JS `x || dflt` on an optional natural (`timestamp || Date.now()`). -/
def jsNatOr (x : Option Nat) (dflt : Nat) : Nat :=
  match x with
  | none => dflt
  | some v => if v = 0 then dflt else v

/-- `POST /api/notifications`: records ESP32 contact, appends the event
to the capped log, emits it, and responds with the generated id. -/
def postNotifications (s : ServerState) (b : NotificationBody) (now : Nat) :
    ServerState × List Emit × String :=
  let n : Notification :=
    { id := toString now
      deviceAddress := b.deviceAddress
      deviceName := jsStrOr b.deviceName b.deviceAddress
      eventType := b.eventType
      timestamp := jsNatOr b.timestamp now
      received := now
      source := "esp32" }
  ({ s with esp32LastSeen := some now
            notifications := appendNotification n s.notifications },
   [Emit.notificationEvent n], n.id)

/-- `DELETE /api/notifications`. -/
def deleteNotifications (s : ServerState) : ServerState × List Emit :=
  ({ s with notifications := [] }, [Emit.notificationsCleared])

/-- The 5-minute `setInterval` task: drops records not updated for 5
minutes (no notification synthesis), purges notifications received more
than 2 hours ago (emitting a log snapshot when anything was purged), and
emits a stats update. -/
def periodicCleanup (s : ServerState) (now : Nat) : ServerState × List Emit :=
  let m := s.detectedDevices.filter (fun p => !(p.2.lastUpdated < now - 300000))
  let keep := s.notifications.filter (fun n => n.received > now - 7200000)
  ({ s with detectedDevices := m, notifications := keep },
   (if keep.length < s.notifications.length then [Emit.notificationsUpdate (keep.take 20)]
    else [])
     ++ [Emit.systemStatsUpdate])

/-- The *active* flag derived in `GET /api/devices`, `GET /api/status`
and the websocket stats: `lastSeen && (now - lastSeen) < 60000`. -/
def activeFlag (lastSeen : Option Nat) (now : Nat) : Bool :=
  match lastSeen with
  | none => false
  | some t => (t != 0) && (now - t < 60000)

/-- The *healthy* flag derived by the 1-minute health monitor:
`lastSeen && (now - lastSeen) < 120000`. -/
def healthyFlag (lastSeen : Option Nat) (now : Nat) : Bool :=
  match lastSeen with
  | none => false
  | some t => (t != 0) && (now - t < 120000)

/-- The 1-minute health monitor tick: emits a system alert when either
producer is unhealthy (level-triggered; no state mutation). -/
def healthTick (s : ServerState) (now : Nat) : List Emit :=
  if !healthyFlag s.esp32LastSeen now || !healthyFlag s.picoLastSeen now then
    [Emit.systemAlert]
  else []

/-- The `close` bucket of `GET /api/system-stats`:
records with `distance <= 2.0`. -/
noncomputable def closeDevices (s : ServerState) : List DeviceRecord :=
  (s.detectedDevices.map Prod.snd).filter (fun d => decide (d.distance ≤ 2))

/-- The `medium` bucket: `2.0 < distance <= 5.0`. -/
noncomputable def mediumDevices (s : ServerState) : List DeviceRecord :=
  (s.detectedDevices.map Prod.snd).filter
    (fun d => decide (2 < d.distance) && decide (d.distance ≤ 5))

/-- The `far` bucket: `distance > 5.0`. -/
noncomputable def farDevices (s : ServerState) : List DeviceRecord :=
  (s.detectedDevices.map Prod.snd).filter (fun d => decide (5 < d.distance))

/-- The `priorityDevicesInRange` count's underlying list:
priority records with `distance <= 2.0`. -/
noncomputable def priorityInRange (s : ServerState) : List DeviceRecord :=
  (s.detectedDevices.map Prod.snd).filter
    (fun d => d.isPriority && decide (d.distance ≤ 2))

/-- One state-mutating handler or timer invocation. -/
inductive Step : ServerState → ServerState → Prop
  | devices (s : ServerState) (b : DevicesBody) (now : Nat) :
      Step s (postDevices s b now).1
  | setPriority (s : ServerState) (addr : Option String) (flag : Bool) :
      Step s (postSetPriority s addr flag).1
  | notif (s : ServerState) (b : NotificationBody) (now : Nat) :
      Step s (postNotifications s b now).1
  | clearNotifs (s : ServerState) :
      Step s (deleteNotifications s).1
  | cleanup (s : ServerState) (now : Nat) :
      Step s (periodicCleanup s now).1

/-- States reachable from the freshly-loaded module by any sequence of
handler and timer invocations. -/
def Reachable (s : ServerState) : Prop :=
  Relation.ReflTransGen Step initialState s

/-- Every registry record's priority flag agrees with current membership
of its address in the priority set. -/
def PriorityInv (s : ServerState) : Prop :=
  ∀ p ∈ s.detectedDevices, p.2.isPriority = true ↔ p.1 ∈ s.priorityDevices

/-- The registry never holds two entries for one address. -/
def NodupKeys (m : RegMap) : Prop :=
  (m.map Prod.fst).Nodup

/-- Concrete sample address (a well-formed 17-character identifier). -/
def addr1 : String := "AA:BB:CC:DD:EE:01"

/-- A second sample address. -/
def addr2 : String := "AA:BB:CC:DD:EE:02"

/-- A reading whose signal strength is exactly zero and which carries no
explicit distance. -/
def rssiZeroReading : Reading :=
  { address := addr1, name := none, rssi := some 0, distance := none }

/-- A reading with explicit distance 0 (a falsy JS number). -/
def zeroDistanceReading : Reading :=
  { address := addr1, name := none, rssi := none, distance := some 0 }

/-- A reading with signal strength -59 (the reference power). -/
def referenceReading : Reading :=
  { address := addr1, name := none, rssi := some (-59), distance := none }

/-- A reading with explicit distance 3. -/
def dist3Reading : Reading :=
  { address := addr1, name := none, rssi := some (-80), distance := some 3 }

/-- A reading with neither distance nor signal strength. -/
def emptyReading : Reading :=
  { address := addr1, name := none, rssi := none, distance := none }

/-- A reading whose address is not a 17-character colon-separated
hardware identifier. -/
def badAddressReading : Reading :=
  { address := "garbage", name := none, rssi := none, distance := some 3 }

/-- A priority-flagged record last updated at time 0. -/
noncomputable def staleRec : DeviceRecord :=
  { address := addr1, name := none, rssi := none, distance := 5,
    isPriority := true, lastUpdated := 0, source := "pico_w", wasInRange := false }

/-- A non-priority record last updated at time 0. -/
noncomputable def staleRecNoPri : DeviceRecord :=
  { address := addr2, name := none, rssi := none, distance := 5,
    isPriority := false, lastUpdated := 0, source := "pico_w", wasInRange := false }

/-- A priority record whose distance is the sentinel -1.0. -/
noncomputable def sentinelRec : DeviceRecord :=
  { address := addr2, name := none, rssi := none, distance := -1,
    isPriority := true, lastUpdated := 0, source := "pico_w", wasInRange := true }

/-- A record wired for re-upserting: priority flag false, in-range bit set. -/
noncomputable def oldRec : DeviceRecord :=
  { address := addr1, name := none, rssi := none, distance := 1,
    isPriority := false, lastUpdated := 500, source := "pico_w", wasInRange := true }

/-- A sample producer-reported notification. -/
def sampleNotification : Notification :=
  { id := "n1", deviceAddress := some addr1, deviceName := none,
    eventType := some ("conexion"), timestamp := 1, received := 1, source := "esp32" }

/-- A state holding one stale priority device (for eviction checks). -/
noncomputable def staleState : ServerState :=
  { detectedDevices := [(addr1, staleRec)]
    priorityDevices := [addr1]
    notifications := []
    esp32LastSeen := none
    picoLastSeen := none
    totalScans := 0 }

/-- A state holding one record whose distance is the sentinel -1.0. -/
noncomputable def sentinelState : ServerState :=
  { detectedDevices := [(addr2, sentinelRec)]
    priorityDevices := [addr2]
    notifications := []
    esp32LastSeen := none
    picoLastSeen := none
    totalScans := 0 }

/-- A state holding one known (non-priority) record under `addr1`. -/
noncomputable def knownState : ServerState :=
  { detectedDevices := [(addr1, oldRec)]
    priorityDevices := []
    notifications := []
    esp32LastSeen := none
    picoLastSeen := none
    totalScans := 3 }

/-! ### Registry map lemmas -/

theorem mapGet_mapSet_self (m : RegMap) (a : String) (v : DeviceRecord) :
    mapGet (mapSet m a v) a = some v := by
  induction m with
  | nil => simp [mapSet, mapGet]
  | cons p m ih =>
    by_cases h : p.1 = a
    · simp [mapSet, h, mapGet]
    · simp [mapSet, h, mapGet, ih]

theorem mapGet_mapSet_ne (m : RegMap) (a b : String) (v : DeviceRecord) (h : b ≠ a) :
    mapGet (mapSet m a v) b = mapGet m b := by
  have hab : a ≠ b := Ne.symm h
  induction m with
  | nil => simp [mapSet, mapGet, hab]
  | cons p m ih =>
    by_cases hp : p.1 = a
    · simp [mapSet, hp, mapGet, hab, h]
    · by_cases hb : p.1 = b
      · simp [mapSet, hp, mapGet, hb, hab, h]
      · simp [mapSet, hp, mapGet, hb, hab, h, ih]

theorem mem_mapSet (m : RegMap) (a : String) (v : DeviceRecord)
    (q : String × DeviceRecord) (hq : q ∈ mapSet m a v) : q = (a, v) ∨ q ∈ m := by
  induction m with
  | nil => simpa [mapSet] using hq
  | cons p m ih =>
    by_cases h : p.1 = a
    · rw [mapSet, if_pos h] at hq
      rcases List.mem_cons.mp hq with h1 | h1
      · exact Or.inl h1
      · exact Or.inr (List.mem_cons_of_mem p h1)
    · rw [mapSet, if_neg h] at hq
      rcases List.mem_cons.mp hq with rfl | h1
      · exact Or.inr (List.mem_cons_self _ _)
      · rcases ih h1 with h2 | h2
        · exact Or.inl h2
        · exact Or.inr (List.mem_cons_of_mem p h2)

theorem mem_mapSet_nodup (m : RegMap) (a : String) (v : DeviceRecord)
    (hnd : NodupKeys m) (q : String × DeviceRecord) (hq : q ∈ mapSet m a v) :
    q = (a, v) ∨ (q ∈ m ∧ q.1 ≠ a) := by
  induction m with
  | nil => exact Or.inl (by simpa [mapSet] using hq)
  | cons p m ih =>
    rw [NodupKeys, List.map_cons, List.nodup_cons] at hnd
    by_cases h : p.1 = a
    · rw [mapSet, if_pos h] at hq
      rcases List.mem_cons.mp hq with h1 | h1
      · exact Or.inl h1
      · refine Or.inr ⟨List.mem_cons_of_mem p h1, fun hqa => hnd.1 ?_⟩
        rw [h]
        rw [← hqa]
        exact List.mem_map_of_mem Prod.fst h1
    · rw [mapSet, if_neg h] at hq
      rcases List.mem_cons.mp hq with rfl | h1
      · exact Or.inr ⟨List.mem_cons_self _ _, h⟩
      · rcases ih hnd.2 h1 with h2 | h2
        · exact Or.inl h2
        · exact Or.inr ⟨List.mem_cons_of_mem p h2.1, h2.2⟩

theorem keys_mapSet (m : RegMap) (a : String) (v : DeviceRecord) :
    (mapSet m a v).map Prod.fst =
      if a ∈ m.map Prod.fst then m.map Prod.fst else m.map Prod.fst ++ [a] := by
  induction m with
  | nil => simp [mapSet]
  | cons p m ih =>
    by_cases h : p.1 = a
    · rw [mapSet, if_pos h]
      have ha : a ∈ (p :: m).map Prod.fst := by
        rw [List.map_cons, h]
        exact List.mem_cons_self _ _
      rw [if_pos ha, List.map_cons, List.map_cons]
      simp [h]
    · have hpa : ¬ a = p.1 := fun hpa => h hpa.symm
      rw [mapSet, if_neg h, List.map_cons, ih]
      by_cases hm : a ∈ m.map Prod.fst
      · rw [if_pos hm]
        have ha : a ∈ (p :: m).map Prod.fst := by
          rw [List.map_cons]
          exact List.mem_cons_of_mem _ hm
        rw [if_pos ha, List.map_cons]
      · rw [if_neg hm]
        have ha : a ∉ (p :: m).map Prod.fst := by
          rw [List.map_cons]
          intro hc
          rcases List.mem_cons.mp hc with h1 | h1
          · exact hpa h1
          · exact hm h1
        rw [if_neg ha, List.map_cons]
        rfl

theorem nodupKeys_mapSet (m : RegMap) (a : String) (v : DeviceRecord)
    (hnd : NodupKeys m) : NodupKeys (mapSet m a v) := by
  rw [NodupKeys, keys_mapSet]
  by_cases hm : a ∈ m.map Prod.fst
  · rwa [if_pos hm]
  · rw [if_neg hm]
    rw [List.nodup_append]
    refine ⟨hnd, List.nodup_singleton a, ?_⟩
    intro b hb hba
    rw [List.mem_singleton] at hba
    exact hm (hba ▸ hb)

theorem mapGet_eq_none_iff (m : RegMap) (a : String) :
    mapGet m a = none ↔ ∀ p ∈ m, p.1 ≠ a := by
  induction m with
  | nil => simp [mapGet]
  | cons p m ih =>
    by_cases h : p.1 = a
    · simp [mapGet, h]
    · simp [mapGet, h, ih]

theorem mem_mapDelete (m : RegMap) (a : String) (q : String × DeviceRecord) :
    q ∈ mapDelete m a ↔ q ∈ m ∧ q.1 ≠ a := by
  induction m with
  | nil => simp [mapDelete]
  | cons p m ih =>
    by_cases h : p.1 = a
    · rw [mapDelete, if_pos h, ih]
      constructor
      · exact fun h1 => ⟨List.mem_cons_of_mem p h1.1, h1.2⟩
      · rintro ⟨h1, h2⟩
        rcases List.mem_cons.mp h1 with rfl | h1
        · exact absurd h h2
        · exact ⟨h1, h2⟩
    · rw [mapDelete, if_neg h]
      constructor
      · intro hq
        rcases List.mem_cons.mp hq with rfl | hq
        · exact ⟨List.mem_cons_self _ _, h⟩
        · rcases ih.mp hq with ⟨h1, h2⟩
          exact ⟨List.mem_cons_of_mem p h1, h2⟩
      · rintro ⟨h1, h2⟩
        rcases List.mem_cons.mp h1 with rfl | h1
        · exact List.mem_cons_self _ _
        · exact List.mem_cons_of_mem p (ih.mpr ⟨h1, h2⟩)

theorem mapGet_mapDelete_self (m : RegMap) (a : String) :
    mapGet (mapDelete m a) a = none := by
  rw [mapGet_eq_none_iff]
  exact fun p hp => ((mem_mapDelete m a p).mp hp).2

theorem mapGet_mapDelete_ne (m : RegMap) (a b : String) (h : b ≠ a) :
    mapGet (mapDelete m a) b = mapGet m b := by
  have hab : a ≠ b := Ne.symm h
  induction m with
  | nil => simp [mapDelete]
  | cons p m ih =>
    by_cases hp : p.1 = a
    · simp [mapDelete, hp, mapGet, hab, h, ih]
    · by_cases hb : p.1 = b
      · simp [mapDelete, hp, mapGet, hb, hab, h]
      · simp [mapDelete, hp, mapGet, hb, hab, h, ih]

/-! ### Priority set lemmas -/

theorem mem_setAdd (s : List String) (a b : String) :
    b ∈ setAdd s a ↔ b ∈ s ∨ b = a := by
  unfold setAdd
  by_cases h : a ∈ s
  · rw [if_pos h]
    constructor
    · exact Or.inl
    · rintro (h1 | rfl)
      · exact h1
      · exact h
  · rw [if_neg h]
    simp

theorem setAdd_of_mem (s : List String) (a : String) (h : a ∈ s) :
    setAdd s a = s := by
  rw [setAdd, if_pos h]

theorem mem_setDelete (s : List String) (a b : String) :
    b ∈ setDelete s a ↔ b ∈ s ∧ b ≠ a := by
  induction s with
  | nil => simp [setDelete]
  | cons c s ih =>
    by_cases h : c = a
    · rw [setDelete, if_pos h, ih]
      constructor
      · exact fun h1 => ⟨List.mem_cons_of_mem c h1.1, h1.2⟩
      · rintro ⟨h1, h2⟩
        rcases List.mem_cons.mp h1 with rfl | h1
        · exact absurd h h2
        · exact ⟨h1, h2⟩
    · rw [setDelete, if_neg h]
      constructor
      · intro hq
        rcases List.mem_cons.mp hq with rfl | hq
        · exact ⟨List.mem_cons_self _ _, h⟩
        · rcases ih.mp hq with ⟨h1, h2⟩
          exact ⟨List.mem_cons_of_mem c h1, h2⟩
      · rintro ⟨h1, h2⟩
        rcases List.mem_cons.mp h1 with rfl | h1
        · exact List.mem_cons_self _ _
        · exact List.mem_cons_of_mem c (ih.mpr ⟨h1, h2⟩)

theorem setDelete_of_not_mem (s : List String) (a : String) (h : a ∉ s) :
    setDelete s a = s := by
  induction s with
  | nil => rfl
  | cons c s ih =>
    have hc : c ≠ a := fun hc => h (hc ▸ List.mem_cons_self c s)
    rw [setDelete, if_neg hc, ih (fun hm => h (List.mem_cons_of_mem c hm))]

/-! ### Notification log lemmas -/

theorem appendNotification_eq_cons (n : Notification) (log : List Notification)
    (h : log.length < 100) : appendNotification n log = n :: log := by
  have hc : ¬ (n :: log).length > 100 := by
    rw [List.length_cons]
    omega
  rw [appendNotification, if_neg hc]

theorem appendNotification_length_le_succ (n : Notification) (log : List Notification) :
    (appendNotification n log).length ≤ log.length + 1 := by
  by_cases hc : (n :: log).length > 100
  · rw [appendNotification, if_pos hc, List.length_take, List.length_cons]
    omega
  · rw [appendNotification, if_neg hc, List.length_cons]

theorem appendNotification_length_le (n : Notification) (log : List Notification)
    (h : log.length ≤ 100) : (appendNotification n log).length ≤ 100 := by
  by_cases hc : (n :: log).length > 100
  · rw [appendNotification, if_pos hc, List.length_take, List.length_cons]
    omega
  · rw [appendNotification, if_neg hc, List.length_cons]
    rw [List.length_cons] at hc
    omega

theorem appendNotification_head (n : Notification) (log : List Notification) :
    (appendNotification n log).head? = some n := by
  by_cases hc : (n :: log).length > 100
  · rw [appendNotification, if_pos hc]
    show ((n :: log).take (99 + 1)).head? = some n
    rw [List.take_succ_cons]
    rfl
  · rw [appendNotification, if_neg hc]
    rfl

theorem appendNotification_prefix (n : Notification) (log : List Notification) :
    appendNotification n log <+: n :: log := by
  by_cases hc : (n :: log).length > 100
  · rw [appendNotification, if_pos hc]
    exact List.take_prefix 100 _
  · rw [appendNotification, if_neg hc]

theorem appendNotification_eq_take (n : Notification) (log : List Notification)
    (h : log.length = 100) : appendNotification n log = (n :: log).take 100 := by
  have hc : (n :: log).length > 100 := by
    rw [List.length_cons, h]
    omega
  rw [appendNotification, if_pos hc]

theorem foldl_appendNotification_length (evs : List Notification)
    (init : List Notification) (h : init.length ≤ 100) :
    (evs.foldl (fun l e => appendNotification e l) init).length ≤ 100 := by
  induction evs generalizing init with
  | nil => simpa using h
  | cons e evs ih =>
    rw [List.foldl_cons]
    exact ih _ (appendNotification_length_le e init h)

/-! ### Upsert loop lemmas -/

theorem applyReadings_nil (m : RegMap) (idx : List String) (now : Nat) :
    applyReadings m idx now [] = m := rfl

theorem applyReadings_cons (m : RegMap) (idx : List String) (now : Nat)
    (r : Reading) (rs : List Reading) :
    applyReadings m idx now (r :: rs) =
      applyReadings (mapSet m r.address (mkRecord (mapGet m r.address) r idx now))
        idx now rs := rfl

theorem applyReadings_singleton (m : RegMap) (idx : List String) (now : Nat) (r : Reading) :
    applyReadings m idx now [r] =
      mapSet m r.address (mkRecord (mapGet m r.address) r idx now) := rfl

theorem nodupKeys_applyReadings (m : RegMap) (idx : List String) (now : Nat)
    (rs : List Reading) (h : NodupKeys m) : NodupKeys (applyReadings m idx now rs) := by
  induction rs generalizing m with
  | nil => exact h
  | cons r rs ih => exact ih _ (nodupKeys_mapSet _ _ _ h)

theorem priorityFlag_applyReadings (m : RegMap) (idx : List String) (now : Nat)
    (rs : List Reading) (h : ∀ q ∈ m, q.2.isPriority = true ↔ q.1 ∈ idx) :
    ∀ q ∈ applyReadings m idx now rs, q.2.isPriority = true ↔ q.1 ∈ idx := by
  induction rs generalizing m with
  | nil => exact h
  | cons r rs ih =>
    rw [applyReadings_cons]
    apply ih
    intro q hq
    rcases mem_mapSet _ _ _ _ hq with rfl | hq'
    · simp [mkRecord]
    · exact h q hq'

theorem mapGet_isSome_mapSet (m : RegMap) (a b : String) (v : DeviceRecord)
    (h : (mapGet m b).isSome) : (mapGet (mapSet m a v) b).isSome := by
  by_cases hb : b = a
  · subst hb
    rw [mapGet_mapSet_self]
    rfl
  · rwa [mapGet_mapSet_ne _ _ _ _ hb]

theorem mapGet_isSome_applyReadings (m : RegMap) (idx : List String) (now : Nat)
    (rs : List Reading) (b : String) (h : (mapGet m b).isSome) :
    (mapGet (applyReadings m idx now rs) b).isSome := by
  induction rs generalizing m with
  | nil => exact h
  | cons r rs ih =>
    rw [applyReadings_cons]
    exact ih _ (mapGet_isSome_mapSet _ _ _ _ h)

theorem mapGet_isSome_of_mem_readings (m : RegMap) (idx : List String) (now : Nat)
    (rs : List Reading) (r : Reading) (hr : r ∈ rs) :
    (mapGet (applyReadings m idx now rs) r.address).isSome := by
  induction rs generalizing m with
  | nil => simp at hr
  | cons r0 rs ih =>
    rw [applyReadings_cons]
    rcases List.mem_cons.mp hr with rfl | hr'
    · apply mapGet_isSome_applyReadings
      rw [mapGet_mapSet_self]
      rfl
    · exact ih _ hr'

/-! ### Inline eviction loop lemmas -/

theorem evictGo_devices_subset (now : Nat) (l : List (String × DeviceRecord))
    (acc : EvictAcc) (q : String × DeviceRecord)
    (hq : q ∈ (inlineEvictGo now l acc).devices) : q ∈ acc.devices := by
  induction l generalizing acc with
  | nil => simpa [inlineEvictGo] using hq
  | cons p l ih =>
    obtain ⟨a, d⟩ := p
    rw [inlineEvictGo] at hq
    by_cases h1 : d.lastUpdated < now - 120000
    · rw [if_pos h1] at hq
      by_cases h2 : d.isPriority = true
      · rw [if_pos h2] at hq
        exact ((mem_mapDelete _ _ _).mp (ih _ hq)).1
      · rw [if_neg h2] at hq
        exact ((mem_mapDelete _ _ _).mp (ih _ hq)).1
    · rw [if_neg h1] at hq
      exact ih _ hq

theorem evictGo_get_none (now : Nat) (l : List (String × DeviceRecord)) (acc : EvictAcc)
    (a : String) (h : mapGet acc.devices a = none) :
    mapGet (inlineEvictGo now l acc).devices a = none := by
  rw [mapGet_eq_none_iff] at h ⊢
  exact fun p hp => h p (evictGo_devices_subset now l acc p hp)

theorem evictGo_removes (now : Nat) (l : List (String × DeviceRecord)) (acc : EvictAcc)
    (a : String) (d : DeviceRecord) (hmem : (a, d) ∈ l)
    (hstale : d.lastUpdated < now - 120000) :
    mapGet (inlineEvictGo now l acc).devices a = none := by
  induction l generalizing acc with
  | nil => simp at hmem
  | cons p l ih =>
    obtain ⟨b, e⟩ := p
    rcases List.mem_cons.mp hmem with heq | hmem'
    · rw [Prod.mk.injEq] at heq
      obtain ⟨h1, h2⟩ := heq
      subst h1
      subst h2
      rw [inlineEvictGo, if_pos hstale]
      by_cases h2 : d.isPriority = true
      · rw [if_pos h2]
        apply evictGo_get_none
        exact mapGet_mapDelete_self _ _
      · rw [if_neg h2]
        apply evictGo_get_none
        exact mapGet_mapDelete_self _ _
    · rw [inlineEvictGo]
      by_cases h1 : e.lastUpdated < now - 120000
      · rw [if_pos h1]
        by_cases h2 : e.isPriority = true
        · rw [if_pos h2]
          exact ih _ hmem'
        · rw [if_neg h2]
          exact ih _ hmem'
      · rw [if_neg h1]
        exact ih _ hmem'

theorem evictGo_count_notin (now : Nat) (l : List (String × DeviceRecord)) (acc : EvictAcc)
    (a : String) (ha : a ∉ l.map Prod.fst) :
    ((inlineEvictGo now l acc).emits).countP (isNotifEmitFor a) =
      acc.emits.countP (isNotifEmitFor a) := by
  induction l generalizing acc with
  | nil => rfl
  | cons p l ih =>
    obtain ⟨b, e⟩ := p
    have hba : b ≠ a := by
      intro h
      exact ha (by simp [h])
    have ha' : a ∉ l.map Prod.fst := by
      intro h
      exact ha (by simp [h])
    rw [inlineEvictGo]
    by_cases h1 : e.lastUpdated < now - 120000
    · by_cases h2 : e.isPriority = true
      · rw [if_pos h1, if_pos h2, ih _ ha', List.countP_append]
        simp [isNotifEmitFor, timeoutNotification, hba]
      · rw [if_pos h1, if_neg h2]
        exact ih _ ha'
    · rw [if_neg h1]
      exact ih _ ha'

theorem evictGo_count_mem (now : Nat) (l : List (String × DeviceRecord)) (acc : EvictAcc)
    (a : String) (d : DeviceRecord) (hnd : (l.map Prod.fst).Nodup)
    (hmem : (a, d) ∈ l) (hstale : d.lastUpdated < now - 120000)
    (hpri : d.isPriority = true) :
    ((inlineEvictGo now l acc).emits).countP (isNotifEmitFor a) =
      acc.emits.countP (isNotifEmitFor a) + 1 := by
  induction l generalizing acc with
  | nil => simp at hmem
  | cons p l ih =>
    obtain ⟨b, e⟩ := p
    rw [List.map_cons, List.nodup_cons] at hnd
    rcases List.mem_cons.mp hmem with heq | hmem'
    · rw [Prod.mk.injEq] at heq
      obtain ⟨h1, h2⟩ := heq
      subst h1
      subst h2
      rw [inlineEvictGo, if_pos hstale, if_pos hpri]
      rw [evictGo_count_notin now l _ a hnd.1, List.countP_append]
      simp [isNotifEmitFor, timeoutNotification]
    · have hba : b ≠ a := by
        intro h
        apply hnd.1
        rw [h]
        exact List.mem_map.mpr ⟨(a, d), hmem', rfl⟩
      rw [inlineEvictGo]
      by_cases h1 : e.lastUpdated < now - 120000
      · by_cases h2 : e.isPriority = true
        · rw [if_pos h1, if_pos h2, ih _ hnd.2 hmem', List.countP_append]
          simp [isNotifEmitFor, timeoutNotification, hba]
        · rw [if_pos h1, if_neg h2]
          exact ih _ hnd.2 hmem'
      · rw [if_neg h1]
        exact ih _ hnd.2 hmem'

theorem evictGo_emits_timeout (now : Nat) (l : List (String × DeviceRecord))
    (acc : EvictAcc) (e : Emit) (he : e ∈ (inlineEvictGo now l acc).emits) :
    e ∈ acc.emits ∨ ∃ b d, e = Emit.notificationEvent (timeoutNotification b d now) := by
  induction l generalizing acc with
  | nil => exact Or.inl (by simpa [inlineEvictGo] using he)
  | cons p l ih =>
    obtain ⟨b, d⟩ := p
    rw [inlineEvictGo] at he
    by_cases h1 : d.lastUpdated < now - 120000
    · rw [if_pos h1] at he
      by_cases h2 : d.isPriority = true
      · rw [if_pos h2] at he
        rcases ih { devices := mapDelete acc.devices b
                    log := appendNotification (timeoutNotification b d now) acc.log
                    emits := acc.emits ++ [Emit.notificationEvent (timeoutNotification b d now)] }
            he with hin | hex
        · rcases List.mem_append.mp hin with hin | hin
          · exact Or.inl hin
          · rcases List.mem_singleton.mp hin with rfl
            exact Or.inr ⟨b, d, rfl⟩
        · exact Or.inr hex
      · rw [if_neg h2] at he
        rcases ih { devices := mapDelete acc.devices b, log := acc.log, emits := acc.emits }
            he with hin | hex
        · exact Or.inl hin
        · exact Or.inr hex
    · rw [if_neg h1] at he
      exact ih acc he

theorem evictGo_log_mem_mono (now : Nat) (l : List (String × DeviceRecord))
    (acc : EvictAcc) (n : Notification) (hlen : acc.log.length + l.length ≤ 100)
    (hn : n ∈ acc.log) : n ∈ (inlineEvictGo now l acc).log := by
  induction l generalizing acc with
  | nil => simpa [inlineEvictGo] using hn
  | cons p l ih =>
    obtain ⟨b, e⟩ := p
    rw [List.length_cons] at hlen
    rw [inlineEvictGo]
    by_cases h1 : e.lastUpdated < now - 120000
    · by_cases h2 : e.isPriority = true
      · rw [if_pos h1, if_pos h2]
        have hle := appendNotification_length_le_succ (timeoutNotification b e now) acc.log
        refine ih _ (show (appendNotification (timeoutNotification b e now) acc.log).length
          + l.length ≤ 100 by omega) ?_
        rw [appendNotification_eq_cons _ _ (by omega)]
        exact List.mem_cons_of_mem _ hn
      · rw [if_pos h1, if_neg h2]
        exact ih _ (show acc.log.length + l.length ≤ 100 by omega) hn
    · rw [if_neg h1]
      exact ih _ (show acc.log.length + l.length ≤ 100 by omega) hn

theorem evictGo_log_appended (now : Nat) (l : List (String × DeviceRecord))
    (acc : EvictAcc) (a : String) (d : DeviceRecord)
    (hlen : acc.log.length + l.length ≤ 100) (hmem : (a, d) ∈ l)
    (hstale : d.lastUpdated < now - 120000) (hpri : d.isPriority = true) :
    timeoutNotification a d now ∈ (inlineEvictGo now l acc).log := by
  induction l generalizing acc with
  | nil => simp at hmem
  | cons p l ih =>
    obtain ⟨b, e⟩ := p
    rw [List.length_cons] at hlen
    rcases List.mem_cons.mp hmem with heq | hmem'
    · rw [Prod.mk.injEq] at heq
      obtain ⟨h1, h2⟩ := heq
      subst h1
      subst h2
      rw [inlineEvictGo, if_pos hstale, if_pos hpri]
      have hle := appendNotification_length_le_succ (timeoutNotification a d now) acc.log
      apply evictGo_log_mem_mono
      · show (appendNotification (timeoutNotification a d now) acc.log).length
          + l.length ≤ 100
        omega
      · show timeoutNotification a d now
          ∈ appendNotification (timeoutNotification a d now) acc.log
        rw [appendNotification_eq_cons _ _ (by omega)]
        exact List.mem_cons_self _ _
    · rw [inlineEvictGo]
      by_cases h1 : e.lastUpdated < now - 120000
      · by_cases h2 : e.isPriority = true
        · rw [if_pos h1, if_pos h2]
          have hle := appendNotification_length_le_succ (timeoutNotification b e now) acc.log
          exact ih _ (show (appendNotification (timeoutNotification b e now) acc.log).length
            + l.length ≤ 100 by omega) hmem'
        · rw [if_pos h1, if_neg h2]
          exact ih _ (show acc.log.length + l.length ≤ 100 by omega) hmem'
      · rw [if_neg h1]
        exact ih _ (show acc.log.length + l.length ≤ 100 by omega) hmem'

theorem evictGo_get_of_fresh (now : Nat) (l : List (String × DeviceRecord))
    (acc : EvictAcc) (a : String)
    (hfresh : ∀ d : DeviceRecord, (a, d) ∈ l → ¬ d.lastUpdated < now - 120000) :
    mapGet (inlineEvictGo now l acc).devices a = mapGet acc.devices a := by
  induction l generalizing acc with
  | nil => rfl
  | cons p l ih =>
    obtain ⟨b, e⟩ := p
    have hfresh' : ∀ d : DeviceRecord, (a, d) ∈ l → ¬ d.lastUpdated < now - 120000 :=
      fun d hd => hfresh d (List.mem_cons_of_mem _ hd)
    rw [inlineEvictGo]
    by_cases h1 : e.lastUpdated < now - 120000
    · have hba : b ≠ a := by
        rintro rfl
        exact hfresh e (List.mem_cons_self _ _) h1
      by_cases h2 : e.isPriority = true
      · rw [if_pos h1, if_pos h2, ih _ hfresh']
        exact mapGet_mapDelete_ne _ _ _ (Ne.symm hba)
      · rw [if_pos h1, if_neg h2, ih _ hfresh']
        exact mapGet_mapDelete_ne _ _ _ (Ne.symm hba)
    · rw [if_neg h1]
      exact ih _ hfresh'

/-! ### Distance pipeline evaluation lemmas -/

theorem jsNumOr_none (dflt : ℝ) : jsNumOr none dflt = dflt := rfl

theorem jsNumOr_some_ne (v dflt : ℝ) (h : v ≠ 0) : jsNumOr (some v) dflt = v := by
  show (if v = 0 then dflt else v) = v
  exact if_neg h

theorem jsNumOr_some_zero (dflt : ℝ) : jsNumOr (some 0) dflt = dflt := by
  show (if (0 : ℝ) = 0 then dflt else 0) = dflt
  exact if_pos rfl

theorem calculateDistanceFromRSSI_zero (tx : ℚ) :
    calculateDistanceFromRSSI 0 tx = -1 := by
  rw [calculateDistanceFromRSSI, if_pos rfl]

theorem calculateDistanceFromRSSI_of_ne (rssi tx : ℚ) (h : rssi ≠ 0) :
    calculateDistanceFromRSSI rssi tx = (10 : ℝ) ^ ((((tx - rssi) / 20 : ℚ) : ℝ)) := by
  rw [calculateDistanceFromRSSI, if_neg h]

theorem calculateDistanceFromRSSI_pos (rssi tx : ℚ) (h : rssi ≠ 0) :
    0 < calculateDistanceFromRSSI rssi tx := by
  rw [calculateDistanceFromRSSI_of_ne rssi tx h]
  exact Real.rpow_pos_of_pos (by norm_num) _

theorem estimatedDistance_of_distance (r : Reading) (d : ℚ) (hd : r.distance = some d)
    (hne : d ≠ 0) : estimatedDistance r = some ((d : ℚ) : ℝ) := by
  have h1 : numTruthy r.distance = true := by
    rw [hd]
    simp [numTruthy, hne]
  rw [estimatedDistance, h1]
  rw [hd]
  simp

theorem estimatedDistance_of_rssi (r : Reading) (q : ℚ)
    (hd : r.distance = none ∨ r.distance = some 0) (hq : r.rssi = some q) (hne : q ≠ 0) :
    estimatedDistance r = some (calculateDistanceFromRSSI q (-59)) := by
  have h1 : numTruthy r.distance = false := by
    rcases hd with h | h <;> simp [h, numTruthy]
  have h2 : numTruthy r.rssi = true := by
    simp [hq, numTruthy, hne]
  rw [estimatedDistance, h1, h2]
  simp [hq]

theorem estimatedDistance_of_falsy (r : Reading)
    (hq : r.rssi = none ∨ r.rssi = some 0) :
    estimatedDistance r = r.distance.map (fun q => (q : ℝ)) := by
  have h2 : numTruthy r.rssi = false := by
    rcases hq with h | h <;> simp [h, numTruthy]
  rw [estimatedDistance, h2]
  simp

theorem storedDistance_of_distance (r : Reading) (d : ℚ) (hd : r.distance = some d)
    (hne : d ≠ 0) : storedDistance r = ((d : ℚ) : ℝ) := by
  rw [storedDistance, estimatedDistance_of_distance r d hd hne]
  exact jsNumOr_some_ne _ _ (by exact_mod_cast hne)

theorem storedDistance_of_rssi (r : Reading) (q : ℚ)
    (hd : r.distance = none ∨ r.distance = some 0) (hq : r.rssi = some q) (hne : q ≠ 0) :
    storedDistance r = (10 : ℝ) ^ (((((-59 : ℚ) - q) / 20 : ℚ) : ℝ)) := by
  rw [storedDistance, estimatedDistance_of_rssi r q hd hq hne]
  rw [jsNumOr_some_ne _ _ (ne_of_gt (calculateDistanceFromRSSI_pos q (-59) hne))]
  exact calculateDistanceFromRSSI_of_ne q (-59) hne

theorem storedDistance_of_falsy (r : Reading)
    (hd : r.distance = none ∨ r.distance = some 0)
    (hq : r.rssi = none ∨ r.rssi = some 0) : storedDistance r = 5 := by
  rw [storedDistance, estimatedDistance_of_falsy r hq]
  rcases hd with h | h
  · rw [h]
    rfl
  · rw [h]
    show jsNumOr (some ((0 : ℚ) : ℝ)) 5 = 5
    rw [show ((0 : ℚ) : ℝ) = 0 by norm_num]
    exact jsNumOr_some_zero 5

/-! ### The claims -/

/-- C1 (counterexample): a reading whose signal strength is exactly zero
and has no explicit distance is stored with distance 5.0, not the
sentinel -1.0 claimed by the spec: the upsert guard
`if (!estimatedDistance && device.rssi)` treats rssi 0 as falsy, so
`calculateDistanceFromRSSI` (the only place producing -1.0) is never
invoked on it. -/
theorem c1_counterexample :
    storedDistance rssiZeroReading = 5 ∧ ¬ ((5 : ℝ) = -1) := by
  constructor
  · exact storedDistance_of_falsy rssiZeroReading (Or.inl rfl) (Or.inr rfl)
  · norm_num

/-- C1 (amended): for every reading in an upserted batch the stored
distance is resolved as follows: a nonzero explicit distance is stored
verbatim; otherwise a nonzero signal-strength reading is stored as
`10 ^ ((-59 - rssi) / 20)` (so rssi -59 yields exactly 1.0); otherwise —
including a signal-strength reading of exactly zero, or an explicit
distance of zero with no usable rssi — the stored distance is the
default 5.0.  The sentinel -1.0 is never produced by this path. -/
theorem c1_distance_resolution (r : Reading) :
    (∀ d : ℚ, r.distance = some d → d ≠ 0 → storedDistance r = ((d : ℚ) : ℝ))
    ∧ (∀ q : ℚ, (r.distance = none ∨ r.distance = some 0) → r.rssi = some q → q ≠ 0 →
        storedDistance r = (10 : ℝ) ^ (((((-59 : ℚ) - q) / 20 : ℚ) : ℝ)))
    ∧ ((r.distance = none ∨ r.distance = some 0) → (r.rssi = none ∨ r.rssi = some 0) →
        storedDistance r = 5)
    ∧ ((r.distance = none ∨ r.distance = some 0) → r.rssi = some (-59) →
        storedDistance r = 1) := by
  refine ⟨fun d hd hne => storedDistance_of_distance r d hd hne,
    fun q hd hq hne => storedDistance_of_rssi r q hd hq hne,
    fun hd hq => storedDistance_of_falsy r hd hq, fun hd hq => ?_⟩
  rw [storedDistance_of_rssi r (-59) hd hq (by norm_num)]
  rw [show ((((-59 : ℚ) - (-59)) / 20 : ℚ) : ℝ) = 0 by norm_num]
  exact Real.rpow_zero 10

/-- Witness for C1: a reading with explicit distance 3 stores 3, rssi
-59 stores exactly 1.0, and an empty reading stores the default 5.0. -/
theorem c1_distance_resolution_witness :
    storedDistance dist3Reading = ((3 : ℚ) : ℝ)
    ∧ storedDistance referenceReading = 1
    ∧ storedDistance emptyReading = 5 :=
  ⟨(c1_distance_resolution dist3Reading).1 3 rfl (by norm_num),
   (c1_distance_resolution referenceReading).2.2.2 (Or.inl rfl) rfl,
   (c1_distance_resolution emptyReading).2.2.1 (Or.inl rfl) (Or.inl rfl)⟩

/-- C6: the notification log is bounded: an append prepends the new
event at the head, the result is a prefix of the prepended log (so the
surviving entries keep descending recency order), a log at the cap is
truncated to the newest 100 entries, a log under the cap stays under it,
and any sequence of appends starting from the empty log stays at 100 or
fewer entries. -/
theorem c6_notification_log_bounded (n : Notification) (log : List Notification)
    (h : log.length ≤ 100) :
    (appendNotification n log).length ≤ 100
    ∧ (appendNotification n log).head? = some n
    ∧ appendNotification n log <+: n :: log
    ∧ (log.length = 100 → appendNotification n log = (n :: log).take 100)
    ∧ ∀ evs : List Notification,
        (evs.foldl (fun l e => appendNotification e l) []).length ≤ 100 :=
  ⟨appendNotification_length_le n log h, appendNotification_head n log,
   appendNotification_prefix n log, fun h100 => appendNotification_eq_take n log h100,
   fun evs => foldl_appendNotification_length evs [] (by simp)⟩

/-- Witness for C6 at the empty log and a concrete notification. -/
theorem c6_notification_log_bounded_witness :
    ([] : List Notification).length ≤ 100
    ∧ ((appendNotification sampleNotification []).length ≤ 100
       ∧ (appendNotification sampleNotification []).head? = some sampleNotification
       ∧ appendNotification sampleNotification [] <+: [sampleNotification]
       ∧ (([] : List Notification).length = 100 →
           appendNotification sampleNotification [] = [sampleNotification].take 100)
       ∧ ∀ evs : List Notification,
           (evs.foldl (fun l e => appendNotification e l) []).length ≤ 100) :=
  ⟨by simp, c6_notification_log_bounded sampleNotification [] (by simp)⟩

/-- C9: for a producer with a recorded (positive) last-contact time, the
derived active flag is true exactly when now minus last-contact is
strictly below 60000 ms, and the healthy flag exactly when it is
strictly below 120000 ms; with no recorded contact both flags are
false.  In particular active is true at now - 59s and false at
now - 61s, and analogously for healthy at the 120s boundary. -/
theorem c9_health_flag_boundaries (t now : Nat) :
    (activeFlag (some t) now = true ↔ 0 < t ∧ (now : ℤ) - t < 60000)
    ∧ (healthyFlag (some t) now = true ↔ 0 < t ∧ (now : ℤ) - t < 120000)
    ∧ activeFlag none now = false ∧ healthyFlag none now = false := by
  refine ⟨?_, ?_, rfl, rfl⟩
  · rw [activeFlag]
    simp only [Bool.and_eq_true, bne_iff_ne, ne_eq, decide_eq_true_eq]
    omega
  · rw [healthyFlag]
    simp only [Bool.and_eq_true, bne_iff_ne, ne_eq, decide_eq_true_eq]
    omega

/-- C10: a registry record whose stored distance is the sentinel -1.0 is
counted in the "close" histogram bucket of `GET /api/system-stats`, and,
when priority-flagged, also in `priorityDevicesInRange`: both filters
use `distance <= 2.0` without excluding the sentinel. -/
theorem c10_sentinel_counted_close (s : ServerState) (d : DeviceRecord)
    (hd : d ∈ s.detectedDevices.map Prod.snd) (hs : d.distance = -1) :
    d ∈ closeDevices s ∧ (d.isPriority = true → d ∈ priorityInRange s) := by
  constructor
  · rw [closeDevices, List.mem_filter]
    refine ⟨hd, ?_⟩
    rw [hs]
    exact decide_eq_true (by norm_num)
  · intro hp
    rw [priorityInRange, List.mem_filter]
    refine ⟨hd, ?_⟩
    rw [hp, hs]
    simp only [Bool.true_and, decide_eq_true_eq]
    norm_num

/-- Witness for C10: a concrete state holding one priority record with
sentinel distance; the record lands in both counts. -/
theorem c10_sentinel_counted_close_witness :
    sentinelRec ∈ sentinelState.detectedDevices.map Prod.snd
    ∧ sentinelRec.distance = -1
    ∧ sentinelRec ∈ closeDevices sentinelState
    ∧ sentinelRec ∈ priorityInRange sentinelState := by
  have hmem : sentinelRec ∈ sentinelState.detectedDevices.map Prod.snd := by
    show sentinelRec ∈ [sentinelRec]
    exact List.mem_singleton_self _
  have h := c10_sentinel_counted_close sentinelState sentinelRec hmem rfl
  exact ⟨hmem, rfl, h.1, h.2 rfl⟩

/-- C2 (counterexample): the periodic 5-minute sweep deletes a stale
priority-flagged record without appending any notification: from a state
with one such record and an empty log, the sweep empties the registry
yet leaves the log empty — no "disconnection" event is synthesized,
contrary to the claim that the sweep applies the same notification
synthesis as the inline path. -/
theorem c2_counterexample :
    staleRec.isPriority = true
    ∧ staleRec.lastUpdated < 400000 - 300000
    ∧ (periodicCleanup staleState 400000).1.detectedDevices = []
    ∧ (periodicCleanup staleState 400000).1.notifications = [] := by
  refine ⟨rfl, by decide, ?_, rfl⟩
  rfl

/-- C2 (amended): the periodic sweep (5-minute timer, 5-minute staleness
threshold) removes every record older than the threshold and keeps the
rest, but performs no notification synthesis at all: every notification
in the resulting log was already present before the sweep, and the sweep
emits no notification event — priority-flagged records are deleted
silently, unlike the inline path. -/
theorem c2_periodic_sweep_no_notification (s : ServerState) (now : Nat) :
    (∀ a d, (a, d) ∈ s.detectedDevices → d.lastUpdated < now - 300000 →
        (a, d) ∉ (periodicCleanup s now).1.detectedDevices)
    ∧ (∀ a d, (a, d) ∈ s.detectedDevices → ¬ d.lastUpdated < now - 300000 →
        (a, d) ∈ (periodicCleanup s now).1.detectedDevices)
    ∧ (∀ n, n ∈ (periodicCleanup s now).1.notifications → n ∈ s.notifications)
    ∧ (∀ e, e ∈ (periodicCleanup s now).2 → ∀ n : Notification,
        e ≠ Emit.notificationEvent n) := by
  refine ⟨?_, ?_, ?_, ?_⟩
  · intro a d hmem hstale hin
    simp only [periodicCleanup] at hin
    have hp := List.of_mem_filter hin
    simp only [Bool.not_eq_true', decide_eq_false_iff_not] at hp
    exact hp hstale
  · intro a d hmem hfresh
    simp only [periodicCleanup]
    refine List.mem_filter.mpr ⟨hmem, ?_⟩
    simp only [Bool.not_eq_true', decide_eq_false_iff_not]
    exact hfresh
  · intro n hn
    simp only [periodicCleanup] at hn
    exact List.mem_of_mem_filter hn
  · intro e he n
    simp only [periodicCleanup] at he
    rcases List.mem_append.mp he with h1 | h1
    · split at h1
      · rcases List.mem_singleton.mp h1 with rfl
        exact fun h => Emit.noConfusion h
      · simp at h1
    · rcases List.mem_singleton.mp h1 with rfl
      exact fun h => Emit.noConfusion h

/-- Witness for C2: the stale priority record of `staleState` is removed
by the sweep at time 400000. -/
theorem c2_periodic_sweep_no_notification_witness :
    (addr1, staleRec) ∈ staleState.detectedDevices
    ∧ staleRec.lastUpdated < 400000 - 300000
    ∧ (addr1, staleRec) ∉ (periodicCleanup staleState 400000).1.detectedDevices := by
  have h1 : (addr1, staleRec) ∈ staleState.detectedDevices := List.mem_singleton_self _
  have h2 : staleRec.lastUpdated < 400000 - 300000 := by decide
  exact ⟨h1, h2,
    (c2_periodic_sweep_no_notification staleState 400000).1 addr1 staleRec h1 h2⟩

/-- C4 (counterexample): on first sighting of a reading with explicit
distance 0, the stored (resolved) distance is the default 5.0 — not at
or below the 2.0 threshold — yet `wasInRange` is initialised to true,
because the code tests the pre-default `estimatedDistance` (here 0)
rather than the resolved distance. -/
theorem c4_counterexample :
    (mkRecord none zeroDistanceReading [] 1000).distance = 5
    ∧ ¬ ((5 : ℝ) ≤ 2)
    ∧ (mkRecord none zeroDistanceReading [] 1000).wasInRange = true := by
  refine ⟨?_, by norm_num, ?_⟩
  · show storedDistance zeroDistanceReading = 5
    exact storedDistance_of_falsy zeroDistanceReading (Or.inr rfl) (Or.inl rfl)
  · show jsLe (estimatedDistance zeroDistanceReading) 2 = true
    rw [estimatedDistance_of_falsy zeroDistanceReading (Or.inl rfl)]
    show decide (((0 : ℚ) : ℝ) ≤ 2) = true
    exact decide_eq_true (by norm_num)

/-- C4 (amended): on first sighting `wasInRange` is initialised from the
pre-default estimated distance — true exactly when that estimate exists
and is at or below 2.0 (so explicit distance 0 yields stored distance
5.0 but `wasInRange = true`, and a reading with no usable estimate
yields false); on every subsequent upsert of the same address
`wasInRange` is carried over unchanged while the other fields —
last-update time, distance, priority flag — are updated from the new
reading. -/
theorem c4_wasInRange_hysteresis (m : RegMap) (idx : List String) (r : Reading)
    (now : Nat) :
    (∀ old, mapGet m r.address = some old →
       mapGet (applyReadings m idx now [r]) r.address = some (mkRecord (some old) r idx now)
       ∧ (mkRecord (some old) r idx now).wasInRange = old.wasInRange
       ∧ (mkRecord (some old) r idx now).lastUpdated = now
       ∧ (mkRecord (some old) r idx now).distance = storedDistance r
       ∧ (mkRecord (some old) r idx now).isPriority = decide (r.address ∈ idx))
    ∧ (mapGet m r.address = none →
       mapGet (applyReadings m idx now [r]) r.address = some (mkRecord none r idx now)
       ∧ ((mkRecord none r idx now).wasInRange = true ↔
           ∃ e, estimatedDistance r = some e ∧ e ≤ 2)) := by
  constructor
  · intro old hold
    refine ⟨?_, rfl, rfl, rfl, rfl⟩
    rw [applyReadings_singleton, mapGet_mapSet_self, hold]
  · intro hnone
    constructor
    · rw [applyReadings_singleton, mapGet_mapSet_self, hnone]
    · have hw : (mkRecord none r idx now).wasInRange = jsLe (estimatedDistance r) 2 := rfl
      rw [hw]
      cases he : estimatedDistance r with
      | none => simp [jsLe]
      | some v => simp [jsLe]

/-- Witness for C4: re-upserting the known address of `knownState`
carries the old `wasInRange` bit over and refreshes the timestamp. -/
theorem c4_wasInRange_hysteresis_witness :
    mapGet knownState.detectedDevices dist3Reading.address = some oldRec
    ∧ (mkRecord (some oldRec) dist3Reading [] 9000).wasInRange = oldRec.wasInRange
    ∧ (mkRecord (some oldRec) dist3Reading [] 9000).lastUpdated = 9000
    ∧ mapGet (applyReadings knownState.detectedDevices [] 9000 [dist3Reading])
        dist3Reading.address = some (mkRecord (some oldRec) dist3Reading [] 9000) := by
  have hget : mapGet knownState.detectedDevices dist3Reading.address = some oldRec := by
    rfl
  have h := (c4_wasInRange_hysteresis knownState.detectedDevices [] dist3Reading 9000).1
    oldRec hget
  exact ⟨hget, h.2.1, h.2.2.1, h.1⟩

/-- C7 (counterexample): a batch containing a reading whose address is
not a 17-character colon-separated identifier is accepted, not rejected:
the handler responds with success, increments the submission counter,
and upserts the malformed address into the registry — no address-format
validation exists. -/
theorem c7_counterexample :
    (postDevices initialState (DevicesBody.valid [badAddressReading]) 1000).2.2 =
        DevicesResponse.ok 1 1
    ∧ (postDevices initialState (DevicesBody.valid [badAddressReading]) 1000).1.totalScans = 1
    ∧ (mapGet (postDevices initialState
        (DevicesBody.valid [badAddressReading]) 1000).1.detectedDevices
        badAddressReading.address).isSome = true := by
  refine ⟨?_, ?_, ?_⟩ <;> rfl

/-- C7 (amended): only a missing or non-array `devices` field is
rejected — with a client error, no emits and no state mutation at all;
a well-formed array is accepted wholesale regardless of each reading's
address shape: the handler responds with success, increments the
submission counter, records producer contact, and upserts every
reading's address (validating nothing about its format). -/
theorem c7_validation (s : ServerState) (rs : List Reading) (now : Nat)
    (r : Reading) (hr : r ∈ rs) :
    ((postDevices s DevicesBody.invalid now).1 = s
     ∧ (postDevices s DevicesBody.invalid now).2.1 = []
     ∧ (postDevices s DevicesBody.invalid now).2.2 = DevicesResponse.badRequest)
    ∧ ((∃ k, (postDevices s (DevicesBody.valid rs) now).2.2 = DevicesResponse.ok rs.length k)
       ∧ (postDevices s (DevicesBody.valid rs) now).1.totalScans = s.totalScans + 1
       ∧ (postDevices s (DevicesBody.valid rs) now).1.picoLastSeen = some now
       ∧ (mapGet (applyReadings s.detectedDevices s.priorityDevices now rs)
           r.address).isSome = true) := by
  refine ⟨⟨rfl, rfl, rfl⟩, ⟨_, rfl⟩, rfl, rfl, ?_⟩
  exact mapGet_isSome_of_mem_readings s.detectedDevices s.priorityDevices now rs r hr

/-- Witness for C7 at the initial state and a one-element batch whose
address is malformed. -/
theorem c7_validation_witness :
    badAddressReading ∈ [badAddressReading]
    ∧ (((postDevices initialState DevicesBody.invalid 1000).1 = initialState
        ∧ (postDevices initialState DevicesBody.invalid 1000).2.1 = []
        ∧ (postDevices initialState DevicesBody.invalid 1000).2.2 =
            DevicesResponse.badRequest)
       ∧ ((∃ k, (postDevices initialState (DevicesBody.valid [badAddressReading]) 1000).2.2
             = DevicesResponse.ok [badAddressReading].length k)
          ∧ (postDevices initialState
              (DevicesBody.valid [badAddressReading]) 1000).1.totalScans
             = initialState.totalScans + 1
          ∧ (postDevices initialState
              (DevicesBody.valid [badAddressReading]) 1000).1.picoLastSeen = some 1000
          ∧ (mapGet (applyReadings initialState.detectedDevices
               initialState.priorityDevices 1000 [badAddressReading])
               badAddressReading.address).isSome = true)) :=
  ⟨List.mem_singleton_self _,
   c7_validation initialState [badAddressReading] 1000 badAddressReading
     (List.mem_singleton_self _)⟩

/-! ### Set-priority handler lemmas -/

theorem postSetPriority_of_truthy (s : ServerState) (a : String) (flag : Bool)
    (ha : a ≠ "") :
    postSetPriority s (some a) flag =
      ({ s with
          priorityDevices :=
            (if flag then setAdd s.priorityDevices a else setDelete s.priorityDevices a)
          detectedDevices := setPriorityUpdateRecord s.detectedDevices a flag },
       [Emit.priorityUpdate a flag
          (if flag then setAdd s.priorityDevices a else setDelete s.priorityDevices a)],
       SetPriorityResponse.ok a flag
         (if flag then setAdd s.priorityDevices a
          else setDelete s.priorityDevices a).length) := by
  have hstr : strTruthy (some a) = true := by
    simp [strTruthy, ha]
  rw [postSetPriority, if_pos hstr]
  rfl

/-- C8: `POST /api/set-priority` is idempotent and total: adding an
address already in the priority set leaves the set unchanged, removing
an address not in it leaves it unchanged, the handler responds with
success whether or not a device record exists for the address (creating
none), and a reading for that address arriving in a later batch is
stored with its priority flag already true. -/
theorem c8_set_priority (s : ServerState) (a : String) (ha : a ≠ "") :
    (a ∈ s.priorityDevices →
       (postSetPriority s (some a) true).1.priorityDevices = s.priorityDevices)
    ∧ (a ∉ s.priorityDevices →
       (postSetPriority s (some a) false).1.priorityDevices = s.priorityDevices)
    ∧ (∀ flag, ∃ total, (postSetPriority s (some a) flag).2.2 =
         SetPriorityResponse.ok a flag total)
    ∧ (mapGet s.detectedDevices a = none →
       (postSetPriority s (some a) true).1.detectedDevices = s.detectedDevices
       ∧ ∀ r : Reading, r.address = a → ∀ now : Nat,
           mapGet (applyReadings (postSetPriority s (some a) true).1.detectedDevices
               (postSetPriority s (some a) true).1.priorityDevices now [r]) a
             = some (mkRecord none r (postSetPriority s (some a) true).1.priorityDevices now)
           ∧ (mkRecord none r
               (postSetPriority s (some a) true).1.priorityDevices now).isPriority
             = true) := by
  have hT := postSetPriority_of_truthy s a true ha
  have hF := postSetPriority_of_truthy s a false ha
  refine ⟨?_, ?_, ?_, ?_⟩
  · intro hmem
    rw [hT]
    show (if true = true then setAdd s.priorityDevices a
          else setDelete s.priorityDevices a) = s.priorityDevices
    rw [if_pos rfl]
    exact setAdd_of_mem s.priorityDevices a hmem
  · intro hmem
    rw [hF]
    show (if false = true then setAdd s.priorityDevices a
          else setDelete s.priorityDevices a) = s.priorityDevices
    rw [if_neg (by simp)]
    exact setDelete_of_not_mem s.priorityDevices a hmem
  · intro flag
    cases flag
    · rw [hF]
      exact ⟨_, rfl⟩
    · rw [hT]
      exact ⟨_, rfl⟩
  · intro hget
    have hupd : setPriorityUpdateRecord s.detectedDevices a true = s.detectedDevices := by
      rw [setPriorityUpdateRecord, hget]
    have hdev : (postSetPriority s (some a) true).1.detectedDevices = s.detectedDevices := by
      rw [hT]
      exact hupd
    refine ⟨hdev, ?_⟩
    intro r hra now
    have hidx : (postSetPriority s (some a) true).1.priorityDevices =
        setAdd s.priorityDevices a := by
      rw [hT]
      show (if true = true then setAdd s.priorityDevices a
            else setDelete s.priorityDevices a) = setAdd s.priorityDevices a
      rw [if_pos rfl]
    constructor
    · rw [hdev, applyReadings_singleton, hra, mapGet_mapSet_self, hget]
    · show decide (r.address ∈ (postSetPriority s (some a) true).1.priorityDevices) = true
      rw [hra, hidx]
      exact decide_eq_true ((mem_setAdd s.priorityDevices a a).mpr (Or.inr rfl))

/-- Witness for C8: re-adding the already-priority address of
`staleState` is a no-op; removing a non-member from the initial state is
a no-op; toggling priority with no record present succeeds without
creating one, and a later reading for that address is created with the
flag set. -/
theorem c8_set_priority_witness :
    addr1 ∈ staleState.priorityDevices
    ∧ (postSetPriority staleState (some addr1) true).1.priorityDevices
        = staleState.priorityDevices
    ∧ addr1 ∉ initialState.priorityDevices
    ∧ (postSetPriority initialState (some addr1) false).1.priorityDevices
        = initialState.priorityDevices
    ∧ mapGet initialState.detectedDevices addr1 = none
    ∧ (postSetPriority initialState (some addr1) true).1.detectedDevices
        = initialState.detectedDevices
    ∧ (mkRecord none referenceReading
        (postSetPriority initialState (some addr1) true).1.priorityDevices 1000).isPriority
        = true := by
  have hmem : addr1 ∈ staleState.priorityDevices := List.mem_singleton_self _
  have hnm : addr1 ∉ initialState.priorityDevices := List.not_mem_nil _
  have hget : mapGet initialState.detectedDevices addr1 = none := rfl
  have h1 := (c8_set_priority staleState addr1 (by decide)).1 hmem
  have h2 := (c8_set_priority initialState addr1 (by decide)).2.1 hnm
  have h4 := (c8_set_priority initialState addr1 (by decide)).2.2.2 hget
  have h5 := h4.2 referenceReading rfl 1000
  exact ⟨hmem, h1, hnm, h2, hget, h4.1, h5.2⟩

/-! ### Registry invariant machinery (C5) -/

theorem mapDelete_sublist (m : RegMap) (a : String) : List.Sublist (mapDelete m a) m := by
  induction m with
  | nil => exact List.Sublist.refl _
  | cons p m ih =>
    by_cases h : p.1 = a
    · rw [mapDelete, if_pos h]
      exact ih.cons p
    · rw [mapDelete, if_neg h]
      exact ih.cons₂ p

theorem nodupKeys_mapDelete (m : RegMap) (a : String) (h : NodupKeys m) :
    NodupKeys (mapDelete m a) :=
  ((mapDelete_sublist m a).map Prod.fst).nodup h

theorem nodupKeys_evictGo (now : Nat) (l : List (String × DeviceRecord)) (acc : EvictAcc)
    (h : NodupKeys acc.devices) : NodupKeys (inlineEvictGo now l acc).devices := by
  induction l generalizing acc with
  | nil => exact h
  | cons p l ih =>
    obtain ⟨b, e⟩ := p
    rw [inlineEvictGo]
    by_cases h1 : e.lastUpdated < now - 120000
    · by_cases h2 : e.isPriority = true
      · rw [if_pos h1, if_pos h2]
        exact ih _ (nodupKeys_mapDelete _ _ h)
      · rw [if_pos h1, if_neg h2]
        exact ih _ (nodupKeys_mapDelete _ _ h)
    · rw [if_neg h1]
      exact ih _ h

/-- Registry well-formedness: unique keys plus flag/index agreement. -/
def RegInv (s : ServerState) : Prop :=
  NodupKeys s.detectedDevices ∧ PriorityInv s

theorem regInv_postDevices (s : ServerState) (b : DevicesBody) (now : Nat)
    (hs : RegInv s) : RegInv (postDevices s b now).1 := by
  cases b with
  | invalid => exact hs
  | valid rs =>
    have hmid : NodupKeys (applyReadings s.detectedDevices s.priorityDevices now rs) :=
      nodupKeys_applyReadings _ _ _ _ hs.1
    constructor
    · show NodupKeys (inlineEvictGo now
        (applyReadings s.detectedDevices s.priorityDevices now rs)
        { devices := applyReadings s.detectedDevices s.priorityDevices now rs
          log := s.notifications, emits := [] }).devices
      exact nodupKeys_evictGo _ _ _ hmid
    · intro p hp
      have hp' : p ∈ applyReadings s.detectedDevices s.priorityDevices now rs :=
        evictGo_devices_subset now _ _ p hp
      exact priorityFlag_applyReadings s.detectedDevices s.priorityDevices now rs hs.2 p hp'

theorem regInv_postSetPriority (s : ServerState) (addr : Option String) (flag : Bool)
    (hs : RegInv s) : RegInv (postSetPriority s addr flag).1 := by
  by_cases hstr : strTruthy addr = true
  · cases addr with
    | none => simp [strTruthy] at hstr
    | some a =>
      have ha : a ≠ "" := by
        simpa [strTruthy] using hstr
      rw [postSetPriority_of_truthy s a flag ha]
      have hmemAdd : ∀ b : String, b ≠ a →
          ((b ∈ (if flag then setAdd s.priorityDevices a
                 else setDelete s.priorityDevices a)) ↔ b ∈ s.priorityDevices) := by
        intro b hb
        cases flag
        · rw [if_neg (by simp)]
          rw [mem_setDelete]
          exact ⟨fun h => h.1, fun h => ⟨h, hb⟩⟩
        · rw [if_pos rfl]
          rw [mem_setAdd]
          exact ⟨fun h => h.resolve_right hb, Or.inl⟩
      cases hget : mapGet s.detectedDevices a with
      | none =>
        have hupd : setPriorityUpdateRecord s.detectedDevices a flag = s.detectedDevices := by
          rw [setPriorityUpdateRecord, hget]
        constructor
        · show NodupKeys (setPriorityUpdateRecord s.detectedDevices a flag)
          rw [hupd]
          exact hs.1
        · intro p hp
          rw [show ({ s with
              priorityDevices :=
                (if flag then setAdd s.priorityDevices a else setDelete s.priorityDevices a)
              detectedDevices :=
                setPriorityUpdateRecord s.detectedDevices a flag } : ServerState).detectedDevices
              = s.detectedDevices from hupd] at hp
          have hpa : p.1 ≠ a := (mapGet_eq_none_iff s.detectedDevices a).mp hget p hp
          rw [show ({ s with
              priorityDevices :=
                (if flag then setAdd s.priorityDevices a else setDelete s.priorityDevices a)
              detectedDevices :=
                setPriorityUpdateRecord s.detectedDevices a flag } : ServerState).priorityDevices
              = (if flag then setAdd s.priorityDevices a
                 else setDelete s.priorityDevices a) from rfl]
          rw [hmemAdd p.1 hpa]
          exact hs.2 p hp
      | some d =>
        have hupd : setPriorityUpdateRecord s.detectedDevices a flag =
            mapSet s.detectedDevices a { d with isPriority := flag } := by
          rw [setPriorityUpdateRecord, hget]
        constructor
        · show NodupKeys (setPriorityUpdateRecord s.detectedDevices a flag)
          rw [hupd]
          exact nodupKeys_mapSet _ _ _ hs.1
        · intro p hp
          rw [show ({ s with
              priorityDevices :=
                (if flag then setAdd s.priorityDevices a else setDelete s.priorityDevices a)
              detectedDevices :=
                setPriorityUpdateRecord s.detectedDevices a flag } : ServerState).detectedDevices
              = mapSet s.detectedDevices a { d with isPriority := flag } from hupd] at hp
          show p.2.isPriority = true ↔
            p.1 ∈ (if flag then setAdd s.priorityDevices a else setDelete s.priorityDevices a)
          rcases mem_mapSet_nodup s.detectedDevices a _ hs.1 p hp with rfl | ⟨hpm, hpa⟩
          · show flag = true ↔
              a ∈ (if flag then setAdd s.priorityDevices a else setDelete s.priorityDevices a)
            cases flag
            · rw [if_neg (by simp), mem_setDelete]
              simp
            · rw [if_pos rfl]
              simp [mem_setAdd]
          · rw [hmemAdd p.1 hpa]
            exact hs.2 p hpm
  · have hne : strTruthy addr = false := by
      revert hstr
      cases strTruthy addr <;> simp
    rw [postSetPriority, if_neg (by rw [hne]; exact Bool.false_ne_true)]
    exact hs

theorem regInv_postNotifications (s : ServerState) (b : NotificationBody) (now : Nat)
    (hs : RegInv s) : RegInv (postNotifications s b now).1 :=
  ⟨hs.1, fun p hp => hs.2 p hp⟩

theorem regInv_deleteNotifications (s : ServerState) (hs : RegInv s) :
    RegInv (deleteNotifications s).1 :=
  ⟨hs.1, fun p hp => hs.2 p hp⟩

theorem regInv_periodicCleanup (s : ServerState) (now : Nat) (hs : RegInv s) :
    RegInv (periodicCleanup s now).1 := by
  constructor
  · show NodupKeys (s.detectedDevices.filter _)
    exact ((List.filter_sublist _).map Prod.fst).nodup hs.1
  · intro p hp
    exact hs.2 p (List.mem_of_mem_filter hp)

theorem regInv_step (s s2 : ServerState) (h : Step s s2) (hs : RegInv s) : RegInv s2 := by
  cases h with
  | devices b now => exact regInv_postDevices s b now hs
  | setPriority addr flag => exact regInv_postSetPriority s addr flag hs
  | notif b now => exact regInv_postNotifications s b now hs
  | clearNotifs => exact regInv_deleteNotifications s hs
  | cleanup now => exact regInv_periodicCleanup s now hs

theorem regInv_reachable (s : ServerState) (h : Reachable s) : RegInv s := by
  induction h with
  | refl =>
    refine ⟨by simp [NodupKeys, initialState], ?_⟩
    intro p hp
    simp [initialState] at hp
  | tail hab hbc ih => exact regInv_step _ _ hbc ih

/-- C5: in every state reachable from startup by any sequence of handler
and timer invocations, every registry record's priority flag equals the
current membership of its address in the Priority Index — the flag
never drifts from the index. -/
theorem c5_priority_flag_invariant (s : ServerState) (h : Reachable s) : PriorityInv s :=
  (regInv_reachable s h).2

/-- Witness for C5: the state reached by marking an address priority and
then upserting a reading for it satisfies the invariant. -/
theorem c5_priority_flag_invariant_witness :
    PriorityInv (postDevices (postSetPriority initialState (some addr1) true).1
      (DevicesBody.valid [referenceReading]) 1000).1 :=
  c5_priority_flag_invariant _
    (Relation.ReflTransGen.tail
      (Relation.ReflTransGen.tail Relation.ReflTransGen.refl
        (Step.setPriority initialState (some addr1) true))
      (Step.devices _ (DevicesBody.valid [referenceReading]) 1000))

/-- C3: at the end of every `POST /api/devices` call (registry keys
unique, as a JS `Map` guarantees): (a) every record of the post-upsert
registry whose last-update time is older than 2 minutes is absent from
the resulting registry; (b) for each such record that was
priority-flagged, exactly one notification event for its address is
emitted and — whenever the log has room for the pass — the synthesized
event is appended to the Notification Log; (c) every emitted event is
either a synthesized "desconexion" notification with origin
`system_timeout` or the trailing full device-snapshot broadcast of the
post-eviction registry, which closes the emission sequence. -/
theorem c3_inline_eviction (s : ServerState) (rs : List Reading) (now : Nat)
    (hnd : NodupKeys s.detectedDevices) :
    (∀ a d, (a, d) ∈ applyReadings s.detectedDevices s.priorityDevices now rs →
       d.lastUpdated < now - 120000 →
       mapGet (postDevices s (DevicesBody.valid rs) now).1.detectedDevices a = none
       ∧ (d.isPriority = true →
          (postDevices s (DevicesBody.valid rs) now).2.1.countP (isNotifEmitFor a) = 1
          ∧ (s.notifications.length
               + (applyReadings s.detectedDevices s.priorityDevices now rs).length ≤ 100 →
             timeoutNotification a d now
               ∈ (postDevices s (DevicesBody.valid rs) now).1.notifications)))
    ∧ (∀ e, e ∈ (postDevices s (DevicesBody.valid rs) now).2.1 →
        (∀ n, e = Emit.notificationEvent n →
          n.eventType = some ("desconexion") ∧ n.source = "system_timeout")
        ∧ (e = Emit.devicesUpdate
             ((postDevices s (DevicesBody.valid rs) now).1.detectedDevices.map Prod.snd)
           ∨ ∃ n, e = Emit.notificationEvent n))
    ∧ (∃ pre, (postDevices s (DevicesBody.valid rs) now).2.1 =
        pre ++ [Emit.devicesUpdate
          ((postDevices s (DevicesBody.valid rs) now).1.detectedDevices.map Prod.snd)]) := by
  have hmid : NodupKeys (applyReadings s.detectedDevices s.priorityDevices now rs) :=
    nodupKeys_applyReadings _ _ _ _ hnd
  refine ⟨?_, ?_, ?_⟩
  · intro a d hmem hstale
    constructor
    · show mapGet (inlineEvictGo now
        (applyReadings s.detectedDevices s.priorityDevices now rs)
        { devices := applyReadings s.detectedDevices s.priorityDevices now rs
          log := s.notifications, emits := [] }).devices a = none
      exact evictGo_removes now _ _ a d hmem hstale
    · intro hpri
      constructor
      · show ((inlineEvictGo now
            (applyReadings s.detectedDevices s.priorityDevices now rs)
            { devices := applyReadings s.detectedDevices s.priorityDevices now rs
              log := s.notifications, emits := [] }).emits
            ++ [Emit.devicesUpdate _]).countP (isNotifEmitFor a) = 1
        rw [List.countP_append]
        rw [evictGo_count_mem now _ _ a d hmid hmem hstale hpri]
        simp [isNotifEmitFor]
      · intro hlen
        show timeoutNotification a d now ∈ (inlineEvictGo now
            (applyReadings s.detectedDevices s.priorityDevices now rs)
            { devices := applyReadings s.detectedDevices s.priorityDevices now rs
              log := s.notifications, emits := [] }).log
        exact evictGo_log_appended now _ _ a d hlen hmem hstale hpri
  · intro e he
    have he' : e ∈ (inlineEvictGo now
        (applyReadings s.detectedDevices s.priorityDevices now rs)
        { devices := applyReadings s.detectedDevices s.priorityDevices now rs
          log := s.notifications, emits := [] }).emits
        ++ [Emit.devicesUpdate ((postDevices s
             (DevicesBody.valid rs) now).1.detectedDevices.map Prod.snd)] := he
    rcases List.mem_append.mp he' with hin | hin
    · have ht := evictGo_emits_timeout now _ _ e hin
      rcases ht with h0 | ⟨b, d, heq⟩
      · simp at h0
      · subst heq
        constructor
        · intro n hn
          rw [Emit.notificationEvent.injEq] at hn
          subst hn
          exact ⟨rfl, rfl⟩
        · exact Or.inr ⟨_, rfl⟩
    · rcases List.mem_singleton.mp hin with rfl
      constructor
      · intro n hn
        exact Emit.noConfusion hn
      · exact Or.inl rfl
  · exact ⟨_, rfl⟩

/-- Witness for C3: from a state holding one stale priority record, an
empty-batch submission at time 200000 evicts the record, emits exactly
one notification event for its address, and appends the synthesized
timeout notification to the log. -/
theorem c3_inline_eviction_witness :
    NodupKeys staleState.detectedDevices
    ∧ (addr1, staleRec) ∈ applyReadings staleState.detectedDevices
        staleState.priorityDevices 200000 []
    ∧ staleRec.lastUpdated < 200000 - 120000
    ∧ staleRec.isPriority = true
    ∧ mapGet (postDevices staleState (DevicesBody.valid []) 200000).1.detectedDevices addr1
        = none
    ∧ (postDevices staleState (DevicesBody.valid []) 200000).2.1.countP
        (isNotifEmitFor addr1) = 1
    ∧ timeoutNotification addr1 staleRec 200000
        ∈ (postDevices staleState (DevicesBody.valid []) 200000).1.notifications := by
  have hnd : NodupKeys staleState.detectedDevices := by
    show ([addr1] : List String).Nodup
    simp
  have hmem : (addr1, staleRec) ∈ applyReadings staleState.detectedDevices
      staleState.priorityDevices 200000 [] := List.mem_singleton_self _
  have hstale : staleRec.lastUpdated < 200000 - 120000 := by decide
  have ha := (c3_inline_eviction staleState [] 200000 hnd).1 addr1 staleRec hmem hstale
  have hb := ha.2 rfl
  exact ⟨hnd, hmem, hstale, rfl, ha.1, hb.1, hb.2 (by decide)⟩

end BleServer
